import Mathlib

/-!
Verification of the user-management web application: the backend
`UserService` (in-memory user store) with its auth/CRUD route handlers,
and the Angular client list component (filter / sort / limit pipeline).

Part 1 embeds the backend (`services/user.service.ts`, `routes/auth.ts`,
`routes/users.ts`); Part 2 embeds the client component
(`users/components/users.component.ts`).
-/

namespace UserSvc

/-- Backend `User` record (`types/user.ts`): `role`, `createdAt` and
`password` are optional fields; `password` holds the bcrypt hash and is
stripped from every value the service returns.  Timestamps are modelled
as natural numbers (milliseconds). -/
structure User where
  id : Nat
  name : String
  email : String
  role : Option String
  createdAt : Option Nat
  password : Option String
  deriving DecidableEq, Repr

/-- `UserCreateDTO` (`types/user.ts`). -/
structure UserCreateDTO where
  name : String
  email : String
  password : String
  role : Option String
  deriving DecidableEq, Repr

/-- `UserUpdateDTO` (`types/user.ts`): all fields optional. -/
structure UserUpdateDTO where
  name : Option String
  email : Option String
  role : Option String
  deriving DecidableEq, Repr

/-- The mutable state of `UserService`: the static `users` array and the
static `idCounter` (initialised to 1). -/
structure ServiceState where
  users : List User
  idCounter : Nat
  deriving DecidableEq, Repr

/-- Initial service state: empty array, `idCounter = 1`. -/
def initState : ServiceState := ⟨[], 1⟩

/-- `UserService.sanitizeUser`: destructure away the `password` field. -/
def sanitizeUser (u : User) : User :=
  { u with password := none }

/-- `UserService.getUsers`: every stored user, sanitized. -/
def getUsers (s : ServiceState) : List User :=
  s.users.map sanitizeUser

/-- `UserService.getUserById`: `users.find(u => u.id === id)`, sanitized;
`null` becomes `none`. -/
def getUserById (s : ServiceState) (id : Nat) : Option User :=
  (s.users.find? (fun u => u.id == id)).map sanitizeUser

/-- `UserService.getUserByEmail`: `users.find(u => u.email === email)`,
sanitized. -/
def getUserByEmail (s : ServiceState) (email : String) : Option User :=
  (s.users.find? (fun u => u.email == email)).map sanitizeUser

/-- `UserService.createUser`.  `hashPw` stands for `bcrypt.hash` (the
environment's one-way hasher), `now` for `new Date()`.  Assigns
`idCounter++`, pushes the record, returns the sanitized record. -/
def createUser (hashPw : String → String) (now : Nat)
    (s : ServiceState) (d : UserCreateDTO) : User × ServiceState :=
  let newUser : User :=
    { id := s.idCounter, name := d.name, email := d.email,
      password := some (hashPw d.password), role := d.role,
      createdAt := some now }
  (sanitizeUser newUser, ⟨s.users ++ [newUser], s.idCounter + 1⟩)

/-- The field assignments of `UserService.updateUser`: each of
name/email/role is overwritten exactly when the DTO provides it
(`!== undefined`); `id`, `password`, `createdAt` are never touched. -/
def applyUpdate (d : UserUpdateDTO) (u : User) : User :=
  { u with
    name := match d.name with | some n => n | none => u.name,
    email := match d.email with | some e => e | none => u.email,
    role := match d.role with | some r => some r | none => u.role }

/-- `users.findIndex` + in-place mutation of the found record: updates the
first record with the given id, returning the updated record and the new
array, or `none` when no record matches. -/
def updateFirst (d : UserUpdateDTO) (id : Nat) :
    List User → Option (User × List User)
  | [] => none
  | u :: us =>
    if u.id == id then
      let u' := applyUpdate d u
      some (u', u' :: us)
    else
      match updateFirst d id us with
      | none => none
      | some (r, us') => some (r, u :: us')

/-- `UserService.updateUser`.  The `throw new Error('User not found')` on a
missing id is swallowed by the surrounding `catch`, which rethrows
`'Failed to update user'`; that generic error is what leaves the service. -/
def updateUser (s : ServiceState) (id : Nat) (d : UserUpdateDTO) :
    Except String (User × ServiceState) :=
  match updateFirst d id s.users with
  | none => .error "Failed to update user"
  | some (u', users') => .ok (sanitizeUser u', ⟨users', s.idCounter⟩)

/-- `users.splice(index, 1)`: remove the first record with the given id,
or `none` when no record matches. -/
def removeFirst (id : Nat) : List User → Option (List User)
  | [] => none
  | u :: us =>
    if u.id == id then some us
    else
      match removeFirst id us with
      | none => none
      | some us' => some (u :: us')

/-- `UserService.deleteUser`; as with update, the internal not-found throw
surfaces as the generic `'Failed to delete user'`. -/
def deleteUser (s : ServiceState) (id : Nat) : Except String ServiceState :=
  match removeFirst id s.users with
  | none => .error "Failed to delete user"
  | some users' => .ok ⟨users', s.idCounter⟩

/-- `UserService.verifyCredentials`.  `bcompare` stands for
`bcrypt.compare`.  `!user.password` is true in JS for a missing field and
for the empty string, and both yield `null`. -/
def verifyCredentials (bcompare : String → String → Bool)
    (s : ServiceState) (email password : String) : Option User :=
  match s.users.find? (fun u => u.email == email) with
  | none => none
  | some u =>
    match u.password with
    | none => none
    | some h =>
      if h == "" then none
      else if bcompare password h then some (sanitizeUser u)
      else none

/-- Body of an HTTP response, as the handlers build it. -/
inductive RespBody where
  | err (msg : String)
  | token (t : String)
  | user (u : User)
  | users (l : List User)
  | empty
  deriving DecidableEq, Repr

/-- An HTTP response: status code plus JSON body. -/
structure HttpResponse where
  status : Nat
  body : RespBody
  deriving DecidableEq, Repr

/-- The `POST /login` handler (`routes/auth.ts`): `verifyCredentials`,
then either `400 'Invalid credentials.'` or a token minted by the
environment's `generateToken` (`genTok`). -/
def login (bcompare : String → String → Bool) (genTok : User → String)
    (s : ServiceState) (email password : String) : HttpResponse :=
  match verifyCredentials bcompare s email password with
  | none => ⟨400, .err "Invalid credentials."⟩
  | some u => ⟨200, .token (genTok u)⟩

/-- The `PUT /:id` handler (`routes/users.ts`): resolve existence first
(404), then — only when a non-empty email differing from the current one
is supplied — re-check email uniqueness (409), then delegate to
`updateUser`; a service error is caught as 500. -/
def putUser (s : ServiceState) (id : Nat)
    (name email role : Option String) : HttpResponse × ServiceState :=
  match getUserById s id with
  | none => (⟨404, .err "User not found"⟩, s)
  | some existing =>
    let emailConflict : Bool :=
      match email with
      | some e => e != "" && e != existing.email && (getUserByEmail s e).isSome
      | none => false
    if emailConflict then (⟨409, .err "Email already exists"⟩, s)
    else
      match updateUser s id ⟨name, email, role⟩ with
      | .error _ => (⟨500, .err "Failed to update user"⟩, s)
      | .ok (u, s') => (⟨200, .user u⟩, s')

/-- One mutating call on the service.  A `create` carries the wall-clock
reading used for `createdAt`. -/
inductive Op where
  | create (now : Nat) (d : UserCreateDTO)
  | update (id : Nat) (d : UserUpdateDTO)
  | delete (id : Nat)

/-- Run one operation; the second component is the identity assigned by a
`create`, if the operation is one.  A service error leaves the state
unchanged (the store is only mutated on the success paths). -/
def runOp (hashPw : String → String) (s : ServiceState) :
    Op → ServiceState × Option Nat
  | .create now d =>
    let (u, s') := createUser hashPw now s d
    (s', some u.id)
  | .update id d =>
    match updateUser s id d with
    | .ok (_, s') => (s', none)
    | .error _ => (s, none)
  | .delete id =>
    match deleteUser s id with
    | .ok s' => (s', none)
    | .error _ => (s, none)

/-- Run a sequence of operations from a state, collecting the identities
assigned by the `create` calls, in call order. -/
def runFrom (hashPw : String → String) (s : ServiceState) :
    List Op → ServiceState × List Nat
  | [] => (s, [])
  | op :: ops =>
    let (s', a) := runOp hashPw s op
    let (s'', ids) := runFrom hashPw s' ops
    (s'', a.toList ++ ids)

/-- Run a sequence of operations from the empty store. -/
def runService (hashPw : String → String) (ops : List Op) :
    ServiceState × List Nat :=
  runFrom hashPw initState ops

end UserSvc

namespace UsersComp

/-- `SortDirection` (`sorting.model.ts`): `'asc' | 'desc'`. -/
inductive SortDirection where
  | asc
  | desc
  deriving DecidableEq, Repr

/-- `SortState` (`sorting.model.ts`): the active field and direction. -/
structure SortState where
  field : String
  direction : SortDirection
  deriving DecidableEq, Repr

/-- Client-side `User` model: `role` and `createdAt` optional; dates are
modelled as milliseconds. -/
structure CUser where
  id : Nat
  name : String
  email : String
  role : Option String
  createdAt : Option Nat
  deriving DecidableEq, Repr

/-- A JavaScript value read off a user record by a dynamic field access
`user[field]`: a string, a number, or a `Date`. -/
inductive JSVal where
  | str (s : String)
  | num (n : Nat)
  | date (ms : Nat)
  deriving DecidableEq, Repr

/-- Dynamic field access `u[field as keyof User]`; `none` is JavaScript's
`undefined` (an absent optional field, or an unknown key). -/
def getField (u : CUser) : String → Option JSVal
  | "id" => some (.num u.id)
  | "name" => some (.str u.name)
  | "email" => some (.str u.email)
  | "role" => u.role.map .str
  | "createdAt" => u.createdAt.map .date
  | _ => none

/-- Lexicographic (code-point) order on character lists. -/
def charsLt : List Char → List Char → Bool
  | [], [] => false
  | [], _ :: _ => true
  | _ :: _, [] => false
  | a :: as, b :: bs => a < b || (a == b && charsLt as bs)

/-- Lexicographic (code-point) order on strings. -/
def strLt (a b : String) : Bool :=
  charsLt a.data b.data

/-- JavaScript `<` on the homogeneous value pairs the comparator can
reach (same field of two records); heterogeneous pairs compare false, as
JavaScript relational comparison on incomparable operands does. -/
def jsLt : JSVal → JSVal → Bool
  | .str a, .str b => strLt a b
  | .num a, .num b => a < b
  | .date a, .date b => a < b
  | _, _ => false

/-- `String.prototype.localeCompare`, modelled as code-point order. -/
def localeCmp (a b : String) : Int :=
  if strLt a b then -1 else if strLt b a then 1 else 0

/-- The comparator body of `UsersComponent.applySorting`: undefined values
decide first; for `createdAt` both values are dates (the
`new Date(string)` coercion is an identity under this representation);
strings use `localeCompare`; everything else uses relational comparison. -/
def userCmp (field : String) (direction : SortDirection)
    (a b : CUser) : Int :=
  match getField a field with
  | none => match direction with | .asc => -1 | .desc => 1
  | some va =>
    match getField b field with
    | none => match direction with | .asc => 1 | .desc => -1
    | some vb =>
      match va, vb with
      | .str sa, .str sb =>
        match direction with
        | .asc => localeCmp sa sb
        | .desc => localeCmp sb sa
      | _, _ =>
        match direction with
        | .asc => if jsLt va vb then -1 else if jsLt vb va then 1 else 0
        | .desc => if jsLt vb va then -1 else if jsLt va vb then 1 else 0

/-- Insert an element into a list ordered by a JavaScript comparator,
before the first element it compares `≤ 0` against (the position a stable
sort gives it). -/
def insertCmp (c : α → α → Int) (x : α) : List α → List α
  | [] => [x]
  | y :: ys => if c x y ≤ 0 then x :: y :: ys else y :: insertCmp c x ys

/-- Stable sort by a JavaScript comparator, as `Array.prototype.sort` is
specified to behave. -/
def sortCmp (c : α → α → Int) : List α → List α
  | [] => []
  | x :: xs => insertCmp c x (sortCmp c xs)

/-- `UsersComponent.applySorting`: sort a copy of the input
(`[...data].sort(comparator)`); the input array is left untouched. -/
def applySorting (data : List CUser) (field : String)
    (direction : SortDirection) : List CUser :=
  sortCmp (userCmp field direction) data

/-- `this.limit` truthiness guard around `slice(0, limit)`: `null` and `0`
are falsy in JavaScript, so only a non-zero limit truncates. -/
def truncateLimit (limit : Option Nat) (l : List CUser) : List CUser :=
  match limit with
  | some k => if k == 0 then l else l.take k
  | none => l

/-- Prefix test on character lists. -/
def prefixOfList : List Char → List Char → Bool
  | [], _ => true
  | _ :: _, [] => false
  | a :: as, b :: bs => a == b && prefixOfList as bs

/-- Substring containment on character lists (`String.prototype.includes`). -/
def containsSub (needle : List Char) : List Char → Bool
  | [] => prefixOfList needle []
  | h :: t => prefixOfList needle (h :: t) || containsSub needle t

/-- `hay.includes(needle)` on strings. -/
def strIncludes (hay needle : String) : Bool :=
  containsSub needle.data hay.data

/-- `String.prototype.toLowerCase`, characterwise. -/
def jsToLower (s : String) : String :=
  String.mk (s.data.map Char.toLower)

/-- `String.prototype.trim`: strip whitespace from both ends. -/
def jsTrim (s : String) : String :=
  String.mk
    (((s.data.dropWhile Char.isWhitespace).reverse.dropWhile
        Char.isWhitespace).reverse)

/-- The filter predicate of `UsersComponent.filterUsers`: substring match
on lowercased name, email, or role; `user.role &&` makes a missing or
empty role fail its disjunct. -/
def matchesFilter (ft : String) (u : CUser) : Bool :=
  strIncludes (jsToLower u.name) ft ||
  strIncludes (jsToLower u.email) ft ||
  (match u.role with
   | some r => r != "" && strIncludes (jsToLower r) ft
   | none => false)

/-- The state of `UsersComponent` the list pipeline reads and writes. -/
structure CState where
  users : List CUser
  allUsers : List CUser
  loading : Bool
  error : Option String
  filterText : String
  currentSort : SortState
  limit : Option Nat
  deriving DecidableEq, Repr

/-- `UsersComponent.sortUsers`: resolve the direction (toggle on a repeat
field, else ascending), record the new sort state, sort either the
displayed list (filter active) or a copy of the full set, truncate. -/
def sortUsers (s : CState) (field : String)
    (direction : Option SortDirection) : CState :=
  let dir : SortDirection :=
    match direction with
    | some d => d
    | none =>
      if field == s.currentSort.field && s.currentSort.direction == .asc
      then .desc else .asc
  let s1 := { s with currentSort := ⟨field, dir⟩ }
  let dataToSort := if s1.filterText != "" then s1.users else s1.allUsers
  { s1 with users := truncateLimit s1.limit (applySorting dataToSort field dir) }

/-- `UsersComponent.filterUsers`: normalise the text; an empty filter
re-applies the current sort to the full set, otherwise filter the full
set, sort, truncate. -/
def filterUsers (s : CState) (ft : String) : CState :=
  let ftn := jsTrim (jsToLower ft)
  let s1 := { s with filterText := ftn }
  if ftn == "" then
    sortUsers s1 s1.currentSort.field (some s1.currentSort.direction)
  else
    let filtered := s1.allUsers.filter (matchesFilter ftn)
    { s1 with
      users := truncateLimit s1.limit
        (applySorting filtered s1.currentSort.field s1.currentSort.direction) }

/-- Outcome of the `userService.getUsers()` subscription. -/
inductive FetchOutcome where
  | success (data : List CUser)
  | failure

/-- `UsersComponent.getUsers`: set loading, clear the error; on success
replace the full set and re-apply the current sort; on failure set the
message; either way end with `loading = false`. -/
def getUsersRun (s : CState) (o : FetchOutcome) : CState :=
  let s1 := { s with loading := true, error := none }
  match o with
  | .success data =>
    let s2 := { s1 with allUsers := data }
    let s3 := sortUsers s2 s2.currentSort.field (some s2.currentSort.direction)
    { s3 with loading := false }
  | .failure =>
    { s1 with
      error := some "Failed to load users. Please try again later.",
      loading := false }

/-- The opposite sort direction. -/
def flipDir : SortDirection → SortDirection
  | .asc => .desc
  | .desc => .asc

end UsersComp

open UserSvc UsersComp

/-! Concrete fixtures used by witnesses and counterexamples. -/

/-- A client record with `role` present. -/
def cBob : CUser := ⟨2, "Bob", "bob@example.com", some "User", some 20⟩

/-- A client record with `role` undefined. -/
def cAlice : CUser := ⟨1, "Alice", "alice@example.com", none, some 10⟩

/-- Two client records whose names share the substring `x`. -/
def cAx : CUser := ⟨1, "ax", "a@x", none, none⟩

def cBx : CUser := ⟨2, "bx", "b@x", none, none⟩

/-- A component state with both records fetched, no filter, default sort,
a display cap of 1. -/
def cState0 : CState :=
  ⟨[], [cAx, cBx], false, none, "", ⟨"name", .asc⟩, some 1⟩

/-- C7: with no explicit direction, requesting the current sort field flips
the direction (asc becomes desc and desc becomes asc), and requesting a
different field sets the direction to ascending. -/
theorem sortUsers_toggles_direction (s : CState) (f : String) :
    (f = s.currentSort.field →
      (sortUsers s f none).currentSort =
        ⟨f, flipDir s.currentSort.direction⟩) ∧
    (f ≠ s.currentSort.field →
      (sortUsers s f none).currentSort = ⟨f, SortDirection.asc⟩) := by
  constructor
  · intro h
    subst h
    cases hd : s.currentSort.direction <;> simp [sortUsers, flipDir, hd]
  · intro h
    have hb : (f == s.currentSort.field) = false := by
      simpa using h
    simp [sortUsers, hb]

theorem sortUsers_toggles_direction_witness :
    (sortUsers cState0 "name" none).currentSort =
      ⟨"name", SortDirection.desc⟩ ∧
    (sortUsers cState0 "email" none).currentSort =
      ⟨"email", SortDirection.asc⟩ := by
  constructor
  · have h := (sortUsers_toggles_direction cState0 "name").1 rfl
    simpa [cState0, flipDir] using h
  · exact (sortUsers_toggles_direction cState0 "email").2 (by decide)

/-- C8: a failed fetch sets the single user-facing error message, ends with
the loading flag false, and leaves both the displayed list and the cached
full set unchanged; every fetch outcome ends with the loading flag false. -/
theorem getUsersRun_failure_frame (s : CState) :
    ((getUsersRun s .failure).error =
        some "Failed to load users. Please try again later." ∧
      (getUsersRun s .failure).loading = false ∧
      (getUsersRun s .failure).users = s.users ∧
      (getUsersRun s .failure).allUsers = s.allUsers) ∧
    ∀ o : FetchOutcome, (getUsersRun s o).loading = false := by
  refine ⟨⟨rfl, rfl, rfl, rfl⟩, ?_⟩
  intro o
  cases o <;> rfl

/-- C9: every filter and sort operation leaves the cached full fetched set
`allUsers` unchanged — the same elements in the same order; the sorted
output is a fresh list assigned to the displayed list `users`. -/
theorem filter_sort_preserve_allUsers (s : CState) (ft f : String)
    (d : Option SortDirection) :
    (filterUsers s ft).allUsers = s.allUsers ∧
    (sortUsers s f d).allUsers = s.allUsers := by
  constructor
  · by_cases h : (jsTrim (jsToLower ft) == "") = true <;>
      simp [filterUsers, sortUsers, h]
  · simp [sortUsers]

/-- A deterministic stand-in for the environment's `bcrypt.hash`. -/
def demoHash (p : String) : String := "h$" ++ p

/-- The matching stand-in for `bcrypt.compare`. -/
def demoCompare (p h : String) : Bool := h == demoHash p

/-- A stand-in for the environment's `generateToken`. -/
def demoTok : User → String := fun _ => "tok"

/-- A stored backend record, secret-hash present. -/
def svAlice : User := ⟨1, "A", "a@x", none, some 5, some "h$pw1"⟩

/-- A service state holding `svAlice`. -/
def sState1 : ServiceState := ⟨[svAlice], 2⟩

/-- C1: every record-returning `UserService` operation — `getUsers`,
`getUserById`, `getUserByEmail`, `createUser`, `updateUser`,
`verifyCredentials` — returns only sanitized records: the secret-hash
(`password`) field is absent from every returned record and from every
element of a returned list, in every store state. -/
theorem service_never_returns_password (s : ServiceState) :
    (∀ u ∈ getUsers s, u.password = none) ∧
    (∀ id u, getUserById s id = some u → u.password = none) ∧
    (∀ e u, getUserByEmail s e = some u → u.password = none) ∧
    (∀ hashPw now d, (createUser hashPw now s d).1.password = none) ∧
    (∀ id d r, updateUser s id d = .ok r → r.1.password = none) ∧
    (∀ bc e p u, verifyCredentials bc s e p = some u →
      u.password = none) := by
  refine ⟨?_, ?_, ?_, ?_, ?_, ?_⟩
  · intro u hu
    simp only [getUsers, List.mem_map] at hu
    obtain ⟨v, -, rfl⟩ := hu
    rfl
  · intro id u hu
    simp only [getUserById, Option.map_eq_some'] at hu
    obtain ⟨v, -, rfl⟩ := hu
    rfl
  · intro e u hu
    simp only [getUserByEmail, Option.map_eq_some'] at hu
    obtain ⟨v, -, rfl⟩ := hu
    rfl
  · intro hashPw now d
    rfl
  · intro id d r hr
    unfold updateUser at hr
    cases h : updateFirst d id s.users with
    | none => simp [h] at hr
    | some p =>
      rw [h] at hr
      cases hr
      rfl
  · intro bc e p u hu
    unfold verifyCredentials at hu
    split at hu
    · exact Option.noConfusion hu
    · split at hu
      · exact Option.noConfusion hu
      · split at hu
        · exact Option.noConfusion hu
        · split at hu
          · cases hu
            rfl
          · exact Option.noConfusion hu

theorem service_never_returns_password_witness :
    (sanitizeUser svAlice).password = none ∧
    (createUser demoHash 7 sState1 ⟨"B", "b@x", "pw", none⟩).1.password
      = none := by
  constructor
  · exact (service_never_returns_password sState1).2.1 1
      (sanitizeUser svAlice) (by decide)
  · exact (service_never_returns_password sState1).2.2.2.1 demoHash 7 _

/-- `verifyCredentials` finds no match when the stored record's
secret-hash fails the comparison (or is missing/empty). -/
theorem verifyCredentials_none_of_mismatch (bc : String → String → Bool)
    (s : ServiceState) (email password : String) (u : User)
    (hf : s.users.find? (fun v => v.email == email) = some u)
    (hbc : ∀ h, u.password = some h → bc password h = false) :
    verifyCredentials bc s email password = none := by
  unfold verifyCredentials
  simp only [hf]
  cases hp : u.password with
  | none => rfl
  | some h =>
    by_cases he : (h == "") = true
    · simp [he]
    · simp [he, hbc h hp]

/-- C3: login for an email absent from the store and login for a stored
email whose secret-hash does not match the supplied secret both produce
the very same response, status 400 with message `Invalid credentials.`,
so the response cannot distinguish the two cases. -/
theorem login_uniform_error (bc : String → String → Bool)
    (gt : User → String) (s : ServiceState) (email password : String) :
    (s.users.find? (fun u => u.email == email) = none →
      login bc gt s email password = ⟨400, .err "Invalid credentials."⟩) ∧
    (∀ u, s.users.find? (fun u => u.email == email) = some u →
      (∀ h, u.password = some h → bc password h = false) →
      login bc gt s email password =
        ⟨400, .err "Invalid credentials."⟩) := by
  constructor
  · intro hf
    simp [login, verifyCredentials, hf]
  · intro u hf hbc
    have hv := verifyCredentials_none_of_mismatch bc s email password u hf hbc
    simp [login, hv]

theorem login_uniform_error_witness :
    login demoCompare demoTok sState1 "nobody@x" "pw1" =
      ⟨400, .err "Invalid credentials."⟩ ∧
    login demoCompare demoTok sState1 "a@x" "wrong" =
      ⟨400, .err "Invalid credentials."⟩ := by
  constructor
  · exact (login_uniform_error demoCompare demoTok sState1
      "nobody@x" "pw1").1 (by decide)
  · exact (login_uniform_error demoCompare demoTok sState1
      "a@x" "wrong").2 svAlice (by decide)
      (by intro h hp; cases hp; decide)

/-- Replace the first record with the given id by its image under `f`,
leaving every other record in place. -/
def setFirst (id : Nat) (f : User → User) : List User → List User
  | [] => []
  | u :: us => if u.id == id then f u :: us else u :: setFirst id f us

/-- `updateFirst` acts on the first record `find?` locates, replacing it
via `applyUpdate` and leaving the rest of the array alone. -/
theorem updateFirst_eq (d : UserUpdateDTO) (id : Nat) (l : List User) :
    updateFirst d id l =
      (l.find? (fun u => u.id == id)).map
        (fun u => (applyUpdate d u, setFirst id (applyUpdate d) l)) := by
  induction l with
  | nil => rfl
  | cons u us ih =>
    by_cases h : (u.id == id) = true
    · simp [updateFirst, setFirst, List.find?_cons_of_pos, h]
    · have hf' : List.find? (fun v : User => v.id == id) (u :: us) =
          List.find? (fun v : User => v.id == id) us := by
        simp [List.find?_cons, h]
      simp only [updateFirst, setFirst, h, if_false]
      rw [ih, hf']
      cases hf : us.find? (fun v => v.id == id) <;> simp [hf]

/-- A second stored backend record. -/
def svBob : User := ⟨2, "B", "b@x", none, some 6, some "h$pw2"⟩

/-- A service state holding two records with distinct emails. -/
def sState2 : ServiceState := ⟨[svAlice, svBob], 3⟩

/-- `svAlice` after an update that sets her email to `svBob`'s. -/
def svAliceDup : User := ⟨1, "A", "b@x", none, some 5, some "h$pw1"⟩

/-- C4: updating an id absent from the store fails with the handler's 404
`User not found` and leaves the state unchanged; updating a present id
replaces exactly the first record with that id by the partial update —
which overwrites name/email/role exactly when provided and never touches
id, secret-hash or creation timestamp — and returns the sanitized updated
record. -/
theorem updateUser_notfound_and_exact_fields (s : ServiceState)
    (id : Nat) (n e r : Option String) :
    (getUserById s id = none →
      putUser s id n e r = (⟨404, .err "User not found"⟩, s)) ∧
    (∀ u, s.users.find? (fun v => v.id == id) = some u →
      updateUser s id ⟨n, e, r⟩ =
        .ok (sanitizeUser (applyUpdate ⟨n, e, r⟩ u),
          ⟨setFirst id (applyUpdate ⟨n, e, r⟩) s.users, s.idCounter⟩)) ∧
    (∀ u, (applyUpdate ⟨n, e, r⟩ u).id = u.id ∧
      (applyUpdate ⟨n, e, r⟩ u).password = u.password ∧
      (applyUpdate ⟨n, e, r⟩ u).createdAt = u.createdAt ∧
      (applyUpdate ⟨n, e, r⟩ u).name =
        (match n with | some x => x | none => u.name) ∧
      (applyUpdate ⟨n, e, r⟩ u).email =
        (match e with | some x => x | none => u.email) ∧
      (applyUpdate ⟨n, e, r⟩ u).role =
        (match r with | some x => some x | none => u.role)) := by
  refine ⟨?_, ?_, ?_⟩
  · intro h
    simp [putUser, h]
  · intro u hf
    unfold updateUser
    rw [updateFirst_eq, hf]
    rfl
  · intro u
    exact ⟨rfl, rfl, rfl, rfl, rfl, rfl⟩

theorem updateUser_notfound_and_exact_fields_witness :
    putUser sState1 9 none (some "z@x") none =
      (⟨404, .err "User not found"⟩, sState1) ∧
    updateUser sState2 1 ⟨some "A2", none, none⟩ =
      .ok (sanitizeUser (applyUpdate ⟨some "A2", none, none⟩ svAlice),
        ⟨setFirst 1 (applyUpdate ⟨some "A2", none, none⟩) sState2.users,
          sState2.idCounter⟩) := by
  constructor
  · exact (updateUser_notfound_and_exact_fields sState1 9 none
      (some "z@x") none).1 (by decide)
  · exact (updateUser_notfound_and_exact_fields sState2 1 (some "A2")
      none none).2.1 svAlice (by decide)

/-- C10: `updateUser` succeeds exactly when the id is present, with no
condition on emails; concretely, updating `svAlice`'s email to `svBob`'s
succeeds and leaves two distinct live records sharing one email, while
the `PUT /:id` handler's pre-check rejects the same request with 409. -/
theorem updateUser_no_email_uniqueness :
    (∀ s id d, (∃ r, updateUser s id d = Except.ok r) ↔
      (s.users.find? (fun v => v.id == id)).isSome = true) ∧
    updateUser sState2 1 ⟨none, some "b@x", none⟩ =
      .ok (sanitizeUser svAliceDup, ⟨[svAliceDup, svBob], 3⟩) ∧
    svAliceDup.email = svBob.email ∧
    svAliceDup.id ≠ svBob.id ∧
    putUser sState2 1 none (some "b@x") none =
      (⟨409, .err "Email already exists"⟩, sState2) := by
  refine ⟨?_, rfl, by decide, by decide, by decide⟩
  intro s id d
  unfold updateUser
  rw [updateFirst_eq]
  cases hf : s.users.find? (fun v => v.id == id) <;> simp [hf]

/-- C6 counterexample: with the cap 1 and the filter `x` active (both
records match, displayed list already truncated to `[cAx]`), a descending
sort request leaves `[cAx]` displayed, while the first cap-many elements
of the re-sorted full filtered set would be `[cBx]`: the sort operates on
the truncated displayed list, not on the entire filtered set. -/
theorem cap_before_resort_counterexample :
    (filterUsers cState0 "x").users = [cAx] ∧
    (sortUsers (filterUsers cState0 "x") "name"
      (some SortDirection.desc)).users = [cAx] ∧
    truncateLimit cState0.limit
      (applySorting (cState0.allUsers.filter (matchesFilter "x"))
        "name" SortDirection.desc) = [cBx] ∧
    (sortUsers (filterUsers cState0 "x") "name"
        (some SortDirection.desc)).users ≠
      truncateLimit cState0.limit
        (applySorting (cState0.allUsers.filter (matchesFilter "x"))
          "name" SortDirection.desc) := by
  refine ⟨by decide, by decide, by decide, by decide⟩

/-- C6 amended: within each single operation the cap is applied last — a
filter change displays the first cap-many of sort(filter(full set)), and
a sort request with no filter active displays the first cap-many of
sort(full set) — but a sort request issued while a nonempty filter is
active operates on the currently displayed, already truncated, list: it
re-sorts and re-truncates that list rather than the entire filtered set. -/
theorem cap_after_filter_sort_within_operation (s : CState)
    (ft f : String) (d : SortDirection) :
    (jsTrim (jsToLower ft) ≠ "" →
      (filterUsers s ft).users =
        truncateLimit s.limit
          (applySorting
            (s.allUsers.filter (matchesFilter (jsTrim (jsToLower ft))))
            s.currentSort.field s.currentSort.direction)) ∧
    (s.filterText = "" →
      (sortUsers s f (some d)).users =
        truncateLimit s.limit (applySorting s.allUsers f d)) ∧
    (s.filterText ≠ "" →
      (sortUsers s f (some d)).users =
        truncateLimit s.limit (applySorting s.users f d)) := by
  refine ⟨?_, ?_, ?_⟩
  · intro h
    have hb : (jsTrim (jsToLower ft) == "") = false := by
      simpa using h
    simp [filterUsers, hb]
  · intro h
    have hb : (s.filterText != "") = false := by
      simp [h]
    simp [sortUsers, hb]
  · intro h
    have hb : (s.filterText != "") = true := by
      simpa using h
    simp [sortUsers, hb]

theorem cap_after_filter_sort_within_operation_witness :
    (filterUsers cState0 "x").users = [cAx] ∧
    (sortUsers cState0 "name" (some SortDirection.desc)).users = [cBx] ∧
    (sortUsers (filterUsers cState0 "x") "name"
      (some SortDirection.desc)).users = [cAx] := by
  refine ⟨?_, ?_, ?_⟩
  · exact ((cap_after_filter_sort_within_operation cState0 "x" "name"
      SortDirection.desc).1 (by decide)).trans (by decide)
  · exact ((cap_after_filter_sort_within_operation cState0 "x" "name"
      SortDirection.desc).2.1 rfl).trans (by decide)
  · exact ((cap_after_filter_sort_within_operation (filterUsers cState0 "x")
      "q" "name" SortDirection.desc).2.2 (by decide)).trans (by decide)

/-- C5 counterexample: sorting ascending by `role` a list in which exactly
`cAlice` lacks the field puts her first, not last (and her record is not
last), contradicting "undefined sorts last ascending"; descending puts
her last, not first. -/
theorem undefined_last_asc_counterexample :
    getField cAlice "role" = none ∧
    getField cBob "role" ≠ none ∧
    applySorting [cBob, cAlice] "role" SortDirection.asc =
      [cAlice, cBob] ∧
    applySorting [cBob, cAlice] "role" SortDirection.asc ≠
      [cBob, cAlice] ∧
    applySorting [cBob, cAlice] "role" SortDirection.desc =
      [cBob, cAlice] := by
  refine ⟨by decide, by decide, by decide, by decide, by decide⟩

/-- Membership in an `insertCmp` result: exactly the inserted element and
the old elements. -/
theorem mem_insertCmp (c : α → α → Int) (x : α) (l : List α) (z : α) :
    z ∈ insertCmp c x l ↔ z = x ∨ z ∈ l := by
  induction l with
  | nil => simp [insertCmp]
  | cons y ys ih =>
    by_cases h : c x y ≤ 0
    · simp [insertCmp, h]
    · simp only [insertCmp, h, if_false, List.mem_cons, ih]
      tauto

/-- Inserting into a list pairwise-closed under a predicate `S` keeps it
closed, provided the comparator sends `S`-elements after non-`S`-elements
and never sends an element before an `S`-element with a positive
comparison. -/
theorem pairwise_insertCmp (S : α → Prop) (c : α → α → Int)
    (hA : ∀ a b, S a → ¬ S b → 0 < c a b)
    (hB : ∀ a b, S b → 0 < c a b → S a)
    (x : α) (l : List α)
    (hl : l.Pairwise (fun a b => S a → S b)) :
    (insertCmp c x l).Pairwise (fun a b => S a → S b) := by
  induction l with
  | nil => simp [insertCmp]
  | cons y ys ih =>
    rw [List.pairwise_cons] at hl
    obtain ⟨hy, hys⟩ := hl
    by_cases hc : c x y ≤ 0
    · rw [insertCmp, if_pos hc]
      rw [List.pairwise_cons]
      refine ⟨?_, List.pairwise_cons.mpr ⟨hy, hys⟩⟩
      intro z hz hSx
      have hSy : S y := by
        by_contra hny
        have := hA x y hSx hny
        omega
      rcases List.mem_cons.mp hz with rfl | hz'
      · exact hSy
      · exact hy z hz' hSy
    · rw [insertCmp, if_neg hc]
      rw [List.pairwise_cons]
      refine ⟨?_, ih hys⟩
      intro z hz hSy
      rcases (mem_insertCmp c x ys z).mp hz with rfl | hz'
      · exact hB z y hSy (by omega)
      · exact hy z hz' hSy

/-- `sortCmp` establishes pairwise closure under `S` for any comparator
satisfying the two sign conditions. -/
theorem pairwise_sortCmp (S : α → Prop) (c : α → α → Int)
    (hA : ∀ a b, S a → ¬ S b → 0 < c a b)
    (hB : ∀ a b, S b → 0 < c a b → S a)
    (l : List α) :
    (sortCmp c l).Pairwise (fun a b => S a → S b) := by
  induction l with
  | nil => simp [sortCmp]
  | cons x xs ih => exact pairwise_insertCmp S c hA hB x (sortCmp c xs) ih

/-- C5 amended: for every sort field, a record with an undefined value for
that field is ordered first when the direction is ascending and last when
it is descending: ascending output never has a defined-field record
before an undefined-field one, and descending output never has an
undefined-field record before a defined-field one. -/
theorem undefined_first_asc_last_desc (data : List CUser) (f : String) :
    (applySorting data f SortDirection.asc).Pairwise
      (fun a b => getField a f ≠ none → getField b f ≠ none) ∧
    (applySorting data f SortDirection.desc).Pairwise
      (fun a b => getField a f = none → getField b f = none) := by
  constructor
  · apply pairwise_sortCmp (fun u => getField u f ≠ none)
    · intro a b ha hb
      have hbn : getField b f = none := by simpa using hb
      have ha' : getField a f ≠ none := ha
      obtain ⟨va, hva⟩ := Option.ne_none_iff_exists'.mp ha'
      simp [userCmp, hva, hbn]
    · intro a b hb hc
      by_contra ha
      have han : getField a f = none := by simpa using ha
      simp [userCmp, han] at hc
  · apply pairwise_sortCmp (fun u => getField u f = none)
    · intro a b ha _
      have ha' : getField a f = none := ha
      simp [userCmp, ha']
    · intro a b hb hc
      by_contra ha
      have ha' : getField a f ≠ none := ha
      have hb' : getField b f = none := hb
      obtain ⟨va, hva⟩ := Option.ne_none_iff_exists'.mp ha'
      simp [userCmp, hva, hb'] at hc

/-- An `update` call never changes `idCounter` and assigns no identity. -/
theorem runOp_update_counter (hashPw : String → String)
    (s : ServiceState) (id : Nat) (d : UserUpdateDTO) :
    ((runOp hashPw s (Op.update id d)).1).idCounter = s.idCounter ∧
    (runOp hashPw s (Op.update id d)).2 = none := by
  unfold runOp updateUser
  cases h : updateFirst d id s.users with
  | none => simp [h]
  | some p =>
    obtain ⟨u, us⟩ := p
    simp [h]

/-- A `delete` call never changes `idCounter` and assigns no identity. -/
theorem runOp_delete_counter (hashPw : String → String)
    (s : ServiceState) (id : Nat) :
    ((runOp hashPw s (Op.delete id)).1).idCounter = s.idCounter ∧
    (runOp hashPw s (Op.delete id)).2 = none := by
  unfold runOp deleteUser
  cases h : removeFirst id s.users with
  | none => simp [h]
  | some us => simp [h]

/-- The identity bounds established by running any operation sequence:
the counter never decreases, and every assigned identity lies between the
starting counter (inclusive) and the final counter (exclusive), with the
assigned identities pairwise strictly increasing. -/
theorem runFrom_ids_bounds (hashPw : String → String) (ops : List Op) :
    ∀ s : ServiceState,
      s.idCounter ≤ (runFrom hashPw s ops).1.idCounter ∧
      (∀ i ∈ (runFrom hashPw s ops).2,
        s.idCounter ≤ i ∧ i < (runFrom hashPw s ops).1.idCounter) ∧
      ((runFrom hashPw s ops).2).Pairwise (· < ·) := by
  induction ops with
  | nil =>
    intro s
    simp [runFrom]
  | cons op ops ih =>
    intro s
    cases op with
    | create now d =>
      have hrw : runFrom hashPw s (Op.create now d :: ops) =
          ((runFrom hashPw (createUser hashPw now s d).2 ops).1,
            s.idCounter ::
              (runFrom hashPw (createUser hashPw now s d).2 ops).2) := rfl
      obtain ⟨ihc, ihb, ihp⟩ := ih (createUser hashPw now s d).2
      have hcnt : ((createUser hashPw now s d).2).idCounter =
          s.idCounter + 1 := rfl
      rw [hcnt] at ihc ihb
      rw [hrw]
      dsimp only
      refine ⟨by omega, ?_, ?_⟩
      · intro i hi
        rcases List.mem_cons.mp hi with rfl | hi'
        · exact ⟨le_refl _, by omega⟩
        · have := ihb i hi'
          omega
      · rw [List.pairwise_cons]
        refine ⟨?_, ihp⟩
        intro i hi
        have := ihb i hi
        omega
    | update id d =>
      obtain ⟨hcnt, hnone⟩ := runOp_update_counter hashPw s id d
      have hrw : runFrom hashPw s (Op.update id d :: ops) =
          ((runFrom hashPw (runOp hashPw s (Op.update id d)).1 ops).1,
            ((runOp hashPw s (Op.update id d)).2).toList ++
              (runFrom hashPw (runOp hashPw s (Op.update id d)).1 ops).2) :=
        rfl
      obtain ⟨ihc, ihb, ihp⟩ := ih (runOp hashPw s (Op.update id d)).1
      rw [hcnt] at ihc ihb
      rw [hrw, hnone]
      simpa using ⟨ihc, ihb, ihp⟩
    | delete id =>
      obtain ⟨hcnt, hnone⟩ := runOp_delete_counter hashPw s id
      have hrw : runFrom hashPw s (Op.delete id :: ops) =
          ((runFrom hashPw (runOp hashPw s (Op.delete id)).1 ops).1,
            ((runOp hashPw s (Op.delete id)).2).toList ++
              (runFrom hashPw (runOp hashPw s (Op.delete id)).1 ops).2) :=
        rfl
      obtain ⟨ihc, ihb, ihp⟩ := ih (runOp hashPw s (Op.delete id)).1
      rw [hcnt] at ihc ihb
      rw [hrw, hnone]
      simpa using ⟨ihc, ihb, ihp⟩

/-- C2: over any finite sequence of create/update/delete operations from
the empty store, the identities assigned by the `create` calls are
strictly increasing in call order, and no identity is ever assigned
twice — deletions never make an identity available again. -/
theorem assigned_ids_strictly_increasing (hashPw : String → String)
    (ops : List Op) :
    ((runService hashPw ops).2).Pairwise (· < ·) ∧
    ((runService hashPw ops).2).Nodup := by
  have h := (runFrom_ids_bounds hashPw ops initState).2.2
  exact ⟨h, h.imp fun hab => Nat.ne_of_lt hab⟩
